import Mathlib

/-!
Shallow embedding of the Game Boy register file (`src/register.rs`) and
memory map (`src/memory.rs`).  Machine integers are modelled as `Nat` with
explicit `% 2^w` at the points where the Rust code performs a narrowing
cast; fallible operations (Rust `panic!` sites) return `Except`/`Option`.
The target-platform endianness test `cfg!(target_endian = "big")` is
modelled as an explicit `Endianness` parameter, per section 9 of the spec.
-/

deriving instance DecidableEq for Except

namespace GB

/-- Declared target-platform endianness, modelling the Rust
`cfg!(target_endian = "big")` compile-time test as an explicit parameter. -/
inductive Endianness
| big
| little
deriving DecidableEq, Fintype

/-- Represents a choice of register in the Gameboy CPU
(the `Register` enum of `register.rs`). -/
inductive Register
| A
| B
| C
| D
| E
| F
| H
| L
| AF
| BC
| DE
| HL
| SP
| PC
deriving DecidableEq, Fintype

/-- Determines the data size (in bytes) of a register (`Register::get_reg_size`). -/
def Register.get_reg_size : Register → Nat
| Register.A | Register.B | Register.C | Register.D | Register.E | Register.F
| Register.H | Register.L => 1
| _ => 2

/-- The four status flags of the F register (the `StatusFlags` bitflags set):
Z = 0x80, N = 0x40, H = 0x20, C = 0x10. -/
structure StatusFlags where
  z : Bool
  n : Bool
  h : Bool
  c : Bool
deriving DecidableEq, Fintype

/-- The raw bit pattern of a flag set (`StatusFlags::bits`). -/
def StatusFlags.bits (f : StatusFlags) : Nat :=
  (if f.z then 0x80 else 0) + (if f.n then 0x40 else 0) +
  (if f.h then 0x20 else 0) + (if f.c then 0x10 else 0)

/-- Decoding of a raw byte into a flag set (`StatusFlags::from_bits`):
fails when any bit outside the four flag bits (for a byte, the low nibble)
is set. -/
def StatusFlags.from_bits (b : Nat) : Option StatusFlags :=
  if b &&& 0x0F = 0 then
    some (StatusFlags.mk (b.testBit 7) (b.testBit 6) (b.testBit 5) (b.testBit 4))
  else
    none

/-- Error kinds of the register-file operations (the spec's §7 taxonomy for
the `panic!` sites of `register.rs`). -/
inductive RegError
| SizeMismatch
| InvalidFlagState
deriving DecidableEq, Fintype

/-- Represents the registers on the Gameboy CPU as a 12-byte array
(`RegDataArray([u8; 12])`). -/
structure RegDataArray where
  data : List Nat
deriving DecidableEq

/-- Constructor `RegDataArray::new`. -/
def RegDataArray.new (arr : List Nat) : RegDataArray := RegDataArray.mk arr

/-- Well-formedness of the backing store: the Rust type `[u8; 12]` fixes the
length at 12. -/
def RegDataArray.wf (r : RegDataArray) : Prop := r.data.length = 12

/-- Determines the starting index in a RegDataArray for the given register
(`RegDataArray::get_idx_for_register`). -/
def get_idx_for_register : Register → Nat
| Register.F | Register.AF => 0
| Register.A => 1
| Register.C | Register.BC => 2
| Register.B => 3
| Register.E | Register.DE => 4
| Register.D => 5
| Register.L | Register.HL => 6
| Register.H => 7
| Register.SP => 8
| Register.PC => 10

/-- Get the value of an 8-bit register (`RegOps::read_word` for
`RegDataArray`). -/
def RegDataArray.read_word (r : RegDataArray) (reg : Register) : Except RegError Nat :=
  if reg.get_reg_size ≠ 1 then
    Except.error RegError.SizeMismatch
  else
    Except.ok (r.data.getD (get_idx_for_register reg) 0)

/-- Set the value of an 8-bit register (`RegOps::write_word`). -/
def RegDataArray.write_word (r : RegDataArray) (reg : Register) (data : Nat) :
    Except RegError RegDataArray :=
  if reg.get_reg_size ≠ 1 then
    Except.error RegError.SizeMismatch
  else
    Except.ok (RegDataArray.mk (r.data.set (get_idx_for_register reg) data))

/-- Get the value of a 16-bit register (`RegOps::read_dword`).  The byte at
the register's index and the byte after it are recombined according to the
declared target endianness, exactly as the two `cfg!` branches do. -/
def RegDataArray.read_dword (r : RegDataArray) (e : Endianness) (reg : Register) :
    Except RegError Nat :=
  if reg.get_reg_size ≠ 2 then
    Except.error RegError.SizeMismatch
  else
    let idx := get_idx_for_register reg
    let high := r.data.getD idx 0
    let low := r.data.getD (idx + 1) 0
    match e with
    | Endianness.big => Except.ok ((high <<< 8) ||| low)
    | Endianness.little => Except.ok ((low <<< 8) ||| high)

/-- Set the value of a 16-bit register (`RegOps::write_dword`).  The `as u8`
narrowing casts of the source are the explicit `% 256`. -/
def RegDataArray.write_dword (r : RegDataArray) (e : Endianness) (reg : Register)
    (data : Nat) : Except RegError RegDataArray :=
  if reg.get_reg_size ≠ 2 then
    Except.error RegError.SizeMismatch
  else
    let idx := get_idx_for_register reg
    let hl : Nat × Nat :=
      match e with
      | Endianness.big => ((data >>> 8) % 256, (data &&& 0x00FF) % 256)
      | Endianness.little => ((data &&& 0x00FF) % 256, (data >>> 8) % 256)
    Except.ok (RegDataArray.mk ((r.data.set idx hl.1).set (idx + 1) hl.2))

/-- Copy the contents of one register into an equally-sized register
(`RegOps::copy_reg`).  Note the source copies only the single byte at the
starting index. -/
def RegDataArray.copy_reg (r : RegDataArray) (dst src : Register) :
    Except RegError RegDataArray :=
  if dst.get_reg_size ≠ src.get_reg_size then
    Except.error RegError.SizeMismatch
  else
    let dst_idx := get_idx_for_register dst
    let src_idx := get_idx_for_register src
    Except.ok (RegDataArray.mk (r.data.set dst_idx (r.data.getD src_idx 0)))

/-- Gets the StatusFlags representation of the current status flag values
(`RegOps::get_flags`). -/
def RegDataArray.get_flags (r : RegDataArray) : Except RegError StatusFlags :=
  match r.read_word Register.F with
  | Except.error e => Except.error e
  | Except.ok f_word =>
    match StatusFlags.from_bits f_word with
    | some flags => Except.ok flags
    | none => Except.error RegError.InvalidFlagState

/-- Sets the current status flag values to the given value
(`RegOps::set_flags`). -/
def RegDataArray.set_flags (r : RegDataArray) (flags : StatusFlags) :
    Except RegError RegDataArray :=
  r.write_word Register.F flags.bits

/-- The lowest segment of memory in the Gameboy is cartridge memory. -/
def CART_START : Nat := 0x0000

def CART_END : Nat := 0x7FFF

def CART_SIZE : Nat := 1 + (CART_END - CART_START)

/-- After cartridge memory comes video RAM (VRAM). -/
def VRAM_START : Nat := 0x8000

def VRAM_END : Nat := 0x9FFF

def VRAM_SIZE : Nat := 1 + (VRAM_END - VRAM_START)

/-- RAM present on the cartridge rather than the Gameboy itself. -/
def EXRAM_START : Nat := 0xA000

def EXRAM_END : Nat := 0xBFFF

def EXRAM_SIZE : Nat := 1 + (EXRAM_END - EXRAM_START)

/-- Internal (to the Gameboy itself) working RAM. -/
def INRAM_START : Nat := 0xC000

def INRAM_END : Nat := 0xDFFF

def INRAM_SIZE : Nat := 1 + (INRAM_END - INRAM_START)

/-- The "echo" RAM segment: operations on it are performed on the INRAM
segment directly preceding it. -/
def ERAM_START : Nat := 0xE000

def ERAM_END : Nat := 0xFDFF

/-- Object-Attribute Memory (OAM). -/
def OAM_START : Nat := 0xFE00

def OAM_END : Nat := 0xFE9F

def OAM_SIZE : Nat := 1 + (OAM_END - OAM_START)

/-- The hardware IO registers segment. -/
def IO_START : Nat := 0xFF00

def IO_END : Nat := 0xFF7F

def IO_SIZE : Nat := 1 + (IO_END - IO_START)

/-- The "high" internal RAM segment. -/
def HRAM_START : Nat := 0xFF80

def HRAM_END : Nat := 0xFFFE

def HRAM_SIZE : Nat := 1 + (HRAM_END - HRAM_START)

/-- The address of the interrupt-enable flag. -/
def INTERRUPT_ENABLE : Nat := 0xFFFF

/-- Checked read of one byte of a fixed-size Rust array `[u8; N]`:
in Rust an out-of-bounds index aborts, here it yields `none`. -/
def getByte (l : List Nat) (i : Nat) : Option Nat := l[i]?

/-- Checked in-place update of one byte of a fixed-size Rust array. -/
def setByte (l : List Nat) (i : Nat) (v : Nat) : Option (List Nat) :=
  if i < l.length then some (l.set i v) else none

/-- Represents the full memory space available to a Gameboy
(the `Memory` struct of `memory.rs`). -/
structure Memory where
  cart : List Nat
  vram : List Nat
  exram : List Nat
  inram : List Nat
  oam : List Nat
  io : List Nat
  hram : List Nat
  interrupt : Nat
deriving DecidableEq

/-- Well-formedness: the Rust array types fix every segment's length. -/
def Memory.wf (m : Memory) : Prop :=
  m.cart.length = CART_SIZE ∧ m.vram.length = VRAM_SIZE ∧
  m.exram.length = EXRAM_SIZE ∧ m.inram.length = INRAM_SIZE ∧
  m.oam.length = OAM_SIZE ∧ m.io.length = IO_SIZE ∧ m.hram.length = HRAM_SIZE

/-- Reads the byte at an address (`Memory::read_word`), dispatching on the
containing segment in the source's match-arm order; the catch-all arm
(an abort in the source) is `none`. -/
def Memory.read_word (m : Memory) (addr : Nat) : Option Nat :=
  if addr = INTERRUPT_ENABLE then some m.interrupt
  else if CART_START ≤ addr ∧ addr ≤ CART_END then getByte m.cart addr
  else if VRAM_START ≤ addr ∧ addr ≤ VRAM_END then getByte m.vram (addr - VRAM_START)
  else if EXRAM_START ≤ addr ∧ addr ≤ EXRAM_END then getByte m.exram (addr - EXRAM_START)
  else if INRAM_START ≤ addr ∧ addr ≤ INRAM_END then getByte m.inram (addr - INRAM_START)
  else if ERAM_START ≤ addr ∧ addr ≤ ERAM_END then getByte m.inram (addr - ERAM_START)
  else if OAM_START ≤ addr ∧ addr ≤ OAM_END then getByte m.oam (addr - OAM_START)
  else if IO_START ≤ addr ∧ addr ≤ IO_END then getByte m.io (addr - IO_START)
  else if HRAM_START ≤ addr ∧ addr ≤ HRAM_END then getByte m.hram (addr - HRAM_START)
  else none

/-- Writes the byte at an address (`Memory::write_word`); same dispatch as
`Memory.read_word`. -/
def Memory.write_word (m : Memory) (addr : Nat) (data : Nat) : Option Memory :=
  if addr = INTERRUPT_ENABLE then some { m with interrupt := data }
  else if CART_START ≤ addr ∧ addr ≤ CART_END then
    (setByte m.cart addr data).map (fun l => { m with cart := l })
  else if VRAM_START ≤ addr ∧ addr ≤ VRAM_END then
    (setByte m.vram (addr - VRAM_START) data).map (fun l => { m with vram := l })
  else if EXRAM_START ≤ addr ∧ addr ≤ EXRAM_END then
    (setByte m.exram (addr - EXRAM_START) data).map (fun l => { m with exram := l })
  else if INRAM_START ≤ addr ∧ addr ≤ INRAM_END then
    (setByte m.inram (addr - INRAM_START) data).map (fun l => { m with inram := l })
  else if ERAM_START ≤ addr ∧ addr ≤ ERAM_END then
    (setByte m.inram (addr - ERAM_START) data).map (fun l => { m with inram := l })
  else if OAM_START ≤ addr ∧ addr ≤ OAM_END then
    (setByte m.oam (addr - OAM_START) data).map (fun l => { m with oam := l })
  else if IO_START ≤ addr ∧ addr ≤ IO_END then
    (setByte m.io (addr - IO_START) data).map (fun l => { m with io := l })
  else if HRAM_START ≤ addr ∧ addr ≤ HRAM_END then
    (setByte m.hram (addr - HRAM_START) data).map (fun l => { m with hram := l })
  else none

/-- Two mapped addresses denote the same storage cell: either they are equal,
or both lie in the internal-RAM and echo-RAM union and select the same
internal-RAM offset (the echo redirect makes the two blocks alias). -/
def sameCell (a b : Nat) : Prop :=
  a = b ∨
  (INRAM_START ≤ a ∧ a ≤ ERAM_END ∧ INRAM_START ≤ b ∧ b ≤ ERAM_END ∧
   a % 0x2000 = b % 0x2000)

instance (a b : Nat) : Decidable (sameCell a b) := by
  unfold sameCell
  infer_instance

/-- The register file of the demo in `main.rs`: bytes 0,1,...,11. -/
def regsDemo : RegDataArray := RegDataArray.new [0, 1, 2, 3, 4, 5, 6, 7, 8, 9, 10, 11]

/-- An all-zero register file. -/
def regsZero : RegDataArray := RegDataArray.new (List.replicate 12 0)

/-- An all-zero well-formed memory. -/
def memZero : Memory :=
  Memory.mk (List.replicate 0x8000 0) (List.replicate 0x2000 0) (List.replicate 0x2000 0)
    (List.replicate 0x2000 0) (List.replicate 0xA0 0) (List.replicate 0x80 0)
    (List.replicate 0x7F 0) 0

lemma memZero_wf : memZero.wf := by
  refine ⟨?_, ?_, ?_, ?_, ?_, ?_, ?_⟩ <;>
    simp only [memZero, List.length_replicate, CART_SIZE, CART_START, CART_END, VRAM_SIZE,
      VRAM_START, VRAM_END, EXRAM_SIZE, EXRAM_START, EXRAM_END, INRAM_SIZE, INRAM_START,
      INRAM_END, OAM_SIZE, OAM_START, OAM_END, IO_SIZE, IO_START, IO_END, HRAM_SIZE,
      HRAM_START, HRAM_END]

lemma getD_set_self (l : List Nat) (i v : Nat) (h : i < l.length) :
    (l.set i v).getD i 0 = v := by
  rw [List.getD_eq_getElem?_getD, List.getElem?_set_eq_of_lt v h]
  rfl

lemma getD_set_ne (l : List Nat) (i j v : Nat) (h : i ≠ j) :
    (l.set i v).getD j 0 = l.getD j 0 := by
  rw [List.getD_eq_getElem?_getD, List.getElem?_set_ne h, ← List.getD_eq_getElem?_getD]

lemma getElem_getD_set_self (l : List Nat) (i v : Nat) (h : i < l.length) :
    ((l.set i v)[i]?).getD 0 = v := by
  rw [List.getElem?_set_eq_of_lt v h]
  rfl

lemma getElem_getD_set_ne (l : List Nat) (i j v : Nat) (h : i ≠ j) :
    ((l.set i v)[j]?).getD 0 = (l[j]?).getD 0 := by
  rw [List.getElem?_set_ne h]

lemma getByte_set_self (l : List Nat) (i v : Nat) (h : i < l.length) :
    getByte (l.set i v) i = some v := by
  unfold getByte
  rw [List.getElem?_set_eq_of_lt v h]

lemma getByte_set_ne (l : List Nat) (i j v : Nat) (h : i ≠ j) :
    getByte (l.set i v) j = getByte l j := by
  unfold getByte
  exact List.getElem?_set_ne h

lemma isSome_getByte (l : List Nat) (i : Nat) : (getByte l i).isSome ↔ i < l.length := by
  unfold getByte
  constructor
  · intro h
    by_contra hlt
    rw [List.getElem?_eq_none (Nat.le_of_not_lt hlt)] at h
    simp at h
  · intro h
    rw [List.getElem?_eq_getElem h]
    rfl

lemma isSome_setByte (l : List Nat) (i v : Nat) :
    (setByte l i v).isSome ↔ i < l.length := by
  unfold setByte
  split_ifs with h <;> simp [h]

lemma shiftRight8_mod (v : Nat) (hv : v < 65536) : (v >>> 8) % 256 = v >>> 8 := by
  have h1 : v >>> 8 = v / 256 := Nat.shiftRight_eq_div_pow v 8
  omega

lemma and255_mod (v : Nat) : (v &&& 255) % 256 = v &&& 255 := by
  have h2 : v &&& 255 = v % 256 := Nat.and_pow_two_sub_one_eq_mod v 8
  omega

/-- Recombining the stored high and low bytes of a 16-bit value, in the shape
shared by both endianness branches, returns the value. -/
lemma recombine (v : Nat) (hv : v < 65536) :
    (((v >>> 8) % 256) <<< 8) ||| ((v &&& 255) % 256) = v := by
  have h1 : v >>> 8 = v / 256 := Nat.shiftRight_eq_div_pow v 8
  have h2 : v &&& 255 = v % 256 := Nat.and_pow_two_sub_one_eq_mod v 8
  rw [shiftRight8_mod v hv, and255_mod v, h1, h2, Nat.shiftLeft_eq]
  calc (v / 256) * 2 ^ 8 ||| v % 256
      = 2 ^ 8 * (v / 256) ||| v % 256 := by rw [Nat.mul_comm]
    _ = 2 ^ 8 * (v / 256) + v % 256 := (Nat.mul_add_lt_is_or (by omega) _).symm
    _ = v := by omega

/-- Memory well-formedness with the segment sizes as numerals. -/
lemma wf_iff (m : Memory) :
    m.wf ↔ (m.cart.length = 0x8000 ∧ m.vram.length = 0x2000 ∧
      m.exram.length = 0x2000 ∧ m.inram.length = 0x2000 ∧ m.oam.length = 0xA0 ∧
      m.io.length = 0x80 ∧ m.hram.length = 0x7F) := Iff.rfl

/-- Reads, with the address-range constants as numerals. -/
lemma read_word_eq (m : Memory) (a : Nat) :
    m.read_word a =
      (if a = 0xFFFF then some m.interrupt
      else if 0x0000 ≤ a ∧ a ≤ 0x7FFF then getByte m.cart a
      else if 0x8000 ≤ a ∧ a ≤ 0x9FFF then getByte m.vram (a - 0x8000)
      else if 0xA000 ≤ a ∧ a ≤ 0xBFFF then getByte m.exram (a - 0xA000)
      else if 0xC000 ≤ a ∧ a ≤ 0xDFFF then getByte m.inram (a - 0xC000)
      else if 0xE000 ≤ a ∧ a ≤ 0xFDFF then getByte m.inram (a - 0xE000)
      else if 0xFE00 ≤ a ∧ a ≤ 0xFE9F then getByte m.oam (a - 0xFE00)
      else if 0xFF00 ≤ a ∧ a ≤ 0xFF7F then getByte m.io (a - 0xFF00)
      else if 0xFF80 ≤ a ∧ a ≤ 0xFFFE then getByte m.hram (a - 0xFF80)
      else none) := rfl

/-- Writes, with the address-range constants as numerals. -/
lemma write_word_eq (m : Memory) (a d : Nat) :
    m.write_word a d =
      (if a = 0xFFFF then some { m with interrupt := d }
      else if 0x0000 ≤ a ∧ a ≤ 0x7FFF then
        (setByte m.cart a d).map (fun l => { m with cart := l })
      else if 0x8000 ≤ a ∧ a ≤ 0x9FFF then
        (setByte m.vram (a - 0x8000) d).map (fun l => { m with vram := l })
      else if 0xA000 ≤ a ∧ a ≤ 0xBFFF then
        (setByte m.exram (a - 0xA000) d).map (fun l => { m with exram := l })
      else if 0xC000 ≤ a ∧ a ≤ 0xDFFF then
        (setByte m.inram (a - 0xC000) d).map (fun l => { m with inram := l })
      else if 0xE000 ≤ a ∧ a ≤ 0xFDFF then
        (setByte m.inram (a - 0xE000) d).map (fun l => { m with inram := l })
      else if 0xFE00 ≤ a ∧ a ≤ 0xFE9F then
        (setByte m.oam (a - 0xFE00) d).map (fun l => { m with oam := l })
      else if 0xFF00 ≤ a ∧ a ≤ 0xFF7F then
        (setByte m.io (a - 0xFF00) d).map (fun l => { m with io := l })
      else if 0xFF80 ≤ a ∧ a ≤ 0xFFFE then
        (setByte m.hram (a - 0xFF80) d).map (fun l => { m with hram := l })
      else none) := rfl

lemma read_interrupt_eq (m : Memory) (a : Nat) (h : a = 0xFFFF) :
    m.read_word a = some m.interrupt := by
  rw [read_word_eq]
  split_ifs <;> first | omega | rfl

lemma read_cart_eq (m : Memory) (a : Nat) (h : a ≤ 0x7FFF) :
    m.read_word a = getByte m.cart a := by
  rw [read_word_eq]
  split_ifs <;> first | omega | rfl

lemma read_vram_eq (m : Memory) (a : Nat) (h : 0x8000 ≤ a ∧ a ≤ 0x9FFF) :
    m.read_word a = getByte m.vram (a - 0x8000) := by
  rw [read_word_eq]
  split_ifs <;> first | omega | rfl

lemma read_exram_eq (m : Memory) (a : Nat) (h : 0xA000 ≤ a ∧ a ≤ 0xBFFF) :
    m.read_word a = getByte m.exram (a - 0xA000) := by
  rw [read_word_eq]
  split_ifs <;> first | omega | rfl

lemma read_inram_eq (m : Memory) (a : Nat) (h : 0xC000 ≤ a ∧ a ≤ 0xDFFF) :
    m.read_word a = getByte m.inram (a - 0xC000) := by
  rw [read_word_eq]
  split_ifs <;> first | omega | rfl

lemma read_eram_eq (m : Memory) (a : Nat) (h : 0xE000 ≤ a ∧ a ≤ 0xFDFF) :
    m.read_word a = getByte m.inram (a - 0xE000) := by
  rw [read_word_eq]
  split_ifs <;> first | omega | rfl

lemma read_oam_eq (m : Memory) (a : Nat) (h : 0xFE00 ≤ a ∧ a ≤ 0xFE9F) :
    m.read_word a = getByte m.oam (a - 0xFE00) := by
  rw [read_word_eq]
  split_ifs <;> first | omega | rfl

lemma read_io_eq (m : Memory) (a : Nat) (h : 0xFF00 ≤ a ∧ a ≤ 0xFF7F) :
    m.read_word a = getByte m.io (a - 0xFF00) := by
  rw [read_word_eq]
  split_ifs <;> first | omega | rfl

lemma read_hram_eq (m : Memory) (a : Nat) (h : 0xFF80 ≤ a ∧ a ≤ 0xFFFE) :
    m.read_word a = getByte m.hram (a - 0xFF80) := by
  rw [read_word_eq]
  split_ifs <;> first | omega | rfl

lemma read_gap_eq (m : Memory) (a : Nat) (h : 0xFEA0 ≤ a ∧ a ≤ 0xFEFF) :
    m.read_word a = none := by
  rw [read_word_eq]
  split_ifs <;> first | omega | rfl

lemma write_interrupt_eq (m : Memory) (a d : Nat) (h : a = 0xFFFF) :
    m.write_word a d = some { m with interrupt := d } := by
  rw [write_word_eq]
  split_ifs <;> first | omega | rfl

lemma write_cart_eq (m : Memory) (a d : Nat) (hw : m.wf) (h : a ≤ 0x7FFF) :
    m.write_word a d = some { m with cart := m.cart.set a d } := by
  obtain ⟨h1, h2, h3, h4, h5, h6, h7⟩ := (wf_iff m).mp hw
  have hlt : a < m.cart.length := by omega
  rw [write_word_eq]
  split_ifs <;> first | omega | simp [setByte, hlt]

lemma write_vram_eq (m : Memory) (a d : Nat) (hw : m.wf) (h : 0x8000 ≤ a ∧ a ≤ 0x9FFF) :
    m.write_word a d = some { m with vram := m.vram.set (a - 0x8000) d } := by
  obtain ⟨h1, h2, h3, h4, h5, h6, h7⟩ := (wf_iff m).mp hw
  have hlt : a - 0x8000 < m.vram.length := by omega
  rw [write_word_eq]
  split_ifs <;> first | omega | simp [setByte, hlt]

lemma write_exram_eq (m : Memory) (a d : Nat) (hw : m.wf) (h : 0xA000 ≤ a ∧ a ≤ 0xBFFF) :
    m.write_word a d = some { m with exram := m.exram.set (a - 0xA000) d } := by
  obtain ⟨h1, h2, h3, h4, h5, h6, h7⟩ := (wf_iff m).mp hw
  have hlt : a - 0xA000 < m.exram.length := by omega
  rw [write_word_eq]
  split_ifs <;> first | omega | simp [setByte, hlt]

lemma write_inram_eq (m : Memory) (a d : Nat) (hw : m.wf) (h : 0xC000 ≤ a ∧ a ≤ 0xDFFF) :
    m.write_word a d = some { m with inram := m.inram.set (a - 0xC000) d } := by
  obtain ⟨h1, h2, h3, h4, h5, h6, h7⟩ := (wf_iff m).mp hw
  have hlt : a - 0xC000 < m.inram.length := by omega
  rw [write_word_eq]
  split_ifs <;> first | omega | simp [setByte, hlt]

lemma write_eram_eq (m : Memory) (a d : Nat) (hw : m.wf) (h : 0xE000 ≤ a ∧ a ≤ 0xFDFF) :
    m.write_word a d = some { m with inram := m.inram.set (a - 0xE000) d } := by
  obtain ⟨h1, h2, h3, h4, h5, h6, h7⟩ := (wf_iff m).mp hw
  have hlt : a - 0xE000 < m.inram.length := by omega
  rw [write_word_eq]
  split_ifs <;> first | omega | simp [setByte, hlt]

lemma write_oam_eq (m : Memory) (a d : Nat) (hw : m.wf) (h : 0xFE00 ≤ a ∧ a ≤ 0xFE9F) :
    m.write_word a d = some { m with oam := m.oam.set (a - 0xFE00) d } := by
  obtain ⟨h1, h2, h3, h4, h5, h6, h7⟩ := (wf_iff m).mp hw
  have hlt : a - 0xFE00 < m.oam.length := by omega
  rw [write_word_eq]
  split_ifs <;> first | omega | simp [setByte, hlt]

lemma write_io_eq (m : Memory) (a d : Nat) (hw : m.wf) (h : 0xFF00 ≤ a ∧ a ≤ 0xFF7F) :
    m.write_word a d = some { m with io := m.io.set (a - 0xFF00) d } := by
  obtain ⟨h1, h2, h3, h4, h5, h6, h7⟩ := (wf_iff m).mp hw
  have hlt : a - 0xFF00 < m.io.length := by omega
  rw [write_word_eq]
  split_ifs <;> first | omega | simp [setByte, hlt]

lemma write_hram_eq (m : Memory) (a d : Nat) (hw : m.wf) (h : 0xFF80 ≤ a ∧ a ≤ 0xFFFE) :
    m.write_word a d = some { m with hram := m.hram.set (a - 0xFF80) d } := by
  obtain ⟨h1, h2, h3, h4, h5, h6, h7⟩ := (wf_iff m).mp hw
  have hlt : a - 0xFF80 < m.hram.length := by omega
  rw [write_word_eq]
  split_ifs <;> first | omega | simp [setByte, hlt]

lemma write_gap_eq (m : Memory) (a d : Nat) (h : 0xFEA0 ≤ a ∧ a ≤ 0xFEFF) :
    m.write_word a d = none := by
  rw [write_word_eq]
  split_ifs <;> first | omega | rfl

lemma bits_mod16 : ∀ f : StatusFlags, f.bits % 16 = 0 := by decide

lemma from_bits_bits : ∀ f : StatusFlags, StatusFlags.from_bits f.bits = some f := by decide

lemma size2_iff_mem : ∀ reg : Register, (reg.get_reg_size ≠ 1 ↔
    reg ∈ [Register.AF, Register.BC, Register.DE, Register.HL, Register.SP, Register.PC]) := by
  decide

lemma size1_iff_mem : ∀ reg : Register, (reg.get_reg_size ≠ 2 ↔
    reg ∈ [Register.A, Register.B, Register.C, Register.D, Register.E, Register.F,
      Register.H, Register.L]) := by
  decide

lemma error_iff_aux {α : Type} (c : Prop) [Decidable c] (y : Except RegError α)
    (hy : y.isOk = true) :
    ((if c then Except.error RegError.SizeMismatch else y) =
        Except.error RegError.SizeMismatch ↔ c) ∧
    ((if c then Except.error RegError.SizeMismatch else y).isOk = true ↔ ¬c) := by
  split_ifs with hc
  · refine ⟨⟨fun _ => hc, fun _ => rfl⟩, ?_⟩
    simp [Except.isOk, Except.toBool, hc]
  · refine ⟨⟨fun h => ?_, fun h => absurd h hc⟩, ?_⟩
    · rw [h] at hy
      simp [Except.isOk, Except.toBool] at hy
    · simp [hy, hc]

/-- C1: evaluation of the code at the failing input.  On the demo register
file (bytes 0..11), `copy_reg BC DE` copies only the single byte at DE's
starting index, so afterwards the full 16-bit contents of BC and DE differ:
`read_dword BC = 0x0304` but `read_dword DE = 0x0504`, refuting the claim
that `copy_register` makes the full contents of dst equal those of src for
2-byte registers. -/
theorem C1_copy_reg_truncates_dword :
    (regsDemo.copy_reg Register.BC Register.DE).bind
        (fun r2 => r2.read_dword Endianness.little Register.BC) = Except.ok 0x0304 ∧
    (regsDemo.copy_reg Register.BC Register.DE).bind
        (fun r2 => r2.read_dword Endianness.little Register.DE) = Except.ok 0x0504 ∧
    (0x0304 : Nat) ≠ 0x0504 := by
  decide

/-- C2 counterexample: on a little-endian target, `write_dword AF 0x0100`
stores 0x00 at AF's offset 0, not the high byte 0x01 the claim requires
for every declared endianness. -/
theorem C2_high_byte_layout_counterexample :
    (regsZero.write_dword Endianness.little Register.AF 0x0100).map
        (fun r2 => r2.data.getD (get_idx_for_register Register.AF) 0) = Except.ok 0 ∧
    (0x0100 : Nat) >>> 8 ≠ 0 := by
  decide

lemma write_dword_ok (r : RegDataArray) (e : Endianness) (reg : Register)
    (h2 : reg.get_reg_size = 2) (v : Nat) :
    r.write_dword e reg v = Except.ok (RegDataArray.mk
      ((r.data.set (get_idx_for_register reg)
        (match e with
         | Endianness.big => (v >>> 8) % 256
         | Endianness.little => (v &&& 0x00FF) % 256)).set (get_idx_for_register reg + 1)
        (match e with
         | Endianness.big => (v &&& 0x00FF) % 256
         | Endianness.little => (v >>> 8) % 256))) := by
  have hc : ¬(reg.get_reg_size ≠ 2) := by omega
  unfold RegDataArray.write_dword
  rw [if_neg hc]
  cases e <;> rfl

/-- C2 (amended): after `write_dword` the stored byte order depends on the
declared endianness: on a big-endian target the high byte of the value is at
the register's offset and the low byte at offset+1; on a little-endian
target the low byte is at the register's offset and the high byte at
offset+1. -/
theorem C2_layout_depends_on_endianness (e : Endianness) (r r2 : RegDataArray)
    (reg : Register) (hr : r.wf) (hsize : reg.get_reg_size = 2) (v : Nat)
    (hv : v < 65536) (hwrite : r.write_dword e reg v = Except.ok r2) :
    r2.data.getD (get_idx_for_register reg) 0 =
      (match e with
       | Endianness.big => v >>> 8
       | Endianness.little => v &&& 0x00FF) ∧
    r2.data.getD (get_idx_for_register reg + 1) 0 =
      (match e with
       | Endianness.big => v &&& 0x00FF
       | Endianness.little => v >>> 8) := by
  have hlen : r.data.length = 12 := hr
  rw [write_dword_ok r e reg hsize v] at hwrite
  have h1 := (Except.ok.inj hwrite).symm
  subst h1
  cases e <;>
    cases reg <;>
      first
      | exact absurd hsize (by decide)
      | simp [get_idx_for_register, getD_set_self, getD_set_ne, getElem_getD_set_self,
          getElem_getD_set_ne, hlen, and255_mod, shiftRight8_mod v hv]

/-- C2 witness: the amended layout theorem applied on a little-endian
target at AF with value 0xAAFF from the all-zero register file. -/
theorem C2_layout_witness :
    (RegDataArray.mk [0xFF, 0xAA, 0, 0, 0, 0, 0, 0, 0, 0, 0, 0]).data.getD
        (get_idx_for_register Register.AF) 0 =
      (match Endianness.little with
       | Endianness.big => 0xAAFF >>> 8
       | Endianness.little => 0xAAFF &&& 0x00FF) ∧
    (RegDataArray.mk [0xFF, 0xAA, 0, 0, 0, 0, 0, 0, 0, 0, 0, 0]).data.getD
        (get_idx_for_register Register.AF + 1) 0 =
      (match Endianness.little with
       | Endianness.big => 0xAAFF &&& 0x00FF
       | Endianness.little => 0xAAFF >>> 8) :=
  C2_layout_depends_on_endianness Endianness.little regsZero
    (RegDataArray.mk [0xFF, 0xAA, 0, 0, 0, 0, 0, 0, 0, 0, 0, 0]) Register.AF
    rfl (by decide) 0xAAFF (by decide) (by decide)

/-- C3 counterexample: starting from the all-zero register file (whose F
byte has a zero low nibble), a single `write_word F 0x01` — one of the
operations the claim quantifies over — leaves the byte at offset 0 with a
non-zero low nibble, refuting the claimed invariant. -/
theorem C3_low_nibble_invariant_counterexample :
    regsZero.data.getD 0 0 % 16 = 0 ∧
    (regsZero.write_word Register.F 0x01).map (fun r2 => r2.data.getD 0 0 % 16) =
      Except.ok 1 ∧
    (1 : Nat) ≠ 0 := by
  decide

/-- C3 (amended): the zero-low-nibble invariant of F is maintained by
`set_flags` — after any `set_flags` call the byte at offset 0 has a zero
low nibble — but not by arbitrary `write_word`/`write_dword`/`copy_register`
calls, which can store a byte with a non-zero low nibble at offset 0. -/
theorem C3_set_flags_clears_low_nibble (r r2 : RegDataArray) (f : StatusFlags)
    (hr : r.wf) (hset : r.set_flags f = Except.ok r2) :
    r2.data.getD 0 0 % 16 = 0 := by
  have hlen : r.data.length = 12 := hr
  have h0 : r.set_flags f = Except.ok (RegDataArray.mk (r.data.set 0 f.bits)) := rfl
  rw [h0] at hset
  have h1 := Except.ok.inj hset
  rw [← h1]
  show (r.data.set 0 f.bits).getD 0 0 % 16 = 0
  rw [getD_set_self r.data 0 f.bits (by omega)]
  exact bits_mod16 f

/-- C3 witness: `set_flags` with all four flags set, applied to the all-zero
register file. -/
theorem C3_set_flags_witness :
    (RegDataArray.mk ((List.replicate 12 0).set 0 240)).data.getD 0 0 % 16 = 0 :=
  C3_set_flags_clears_low_nibble regsZero
    (RegDataArray.mk ((List.replicate 12 0).set 0 240))
    (StatusFlags.mk true true true true) rfl (by decide)

/-- C4: for every 2-byte register and every 16-bit value, `write_dword`
followed by `read_dword` on the same register returns the value, on either
declared target endianness. -/
theorem C4_dword_roundtrip (e : Endianness) (r : RegDataArray) (reg : Register)
    (hr : r.wf) (hsize : reg.get_reg_size = 2) (v : Nat) (hv : v < 65536) :
    (r.write_dword e reg v).bind (fun r2 => r2.read_dword e reg) = Except.ok v := by
  have hlen : r.data.length = 12 := hr
  cases reg <;>
    first
    | exact absurd hsize (by decide)
    | (cases e <;>
        (simp [RegDataArray.write_dword, RegDataArray.read_dword, Register.get_reg_size,
            get_idx_for_register, Except.bind, getD_set_self, getD_set_ne, hlen] <;>
          exact recombine v hv))

/-- C4 witness: the round trip at AF with 0xAAFF and at BC with 0xBBCC
(the spec's §8 scenario) on the demo register file, on both endiannesses. -/
theorem C4_dword_roundtrip_witness :
    (regsDemo.write_dword Endianness.little Register.AF 0xAAFF).bind
        (fun r2 => r2.read_dword Endianness.little Register.AF) = Except.ok 0xAAFF ∧
    (regsDemo.write_dword Endianness.big Register.BC 0xBBCC).bind
        (fun r2 => r2.read_dword Endianness.big Register.BC) = Except.ok 0xBBCC :=
  ⟨C4_dword_roundtrip Endianness.little regsDemo Register.AF rfl (by decide)
      0xAAFF (by decide),
    C4_dword_roundtrip Endianness.big regsDemo Register.BC rfl (by decide)
      0xBBCC (by decide)⟩

/-- C5 counterexample: on a big-endian target, `write_dword AF 0x0100`
followed by `read_word F` yields 0x01 — the high byte — not the low byte
0x00 the claim requires. -/
theorem C5_big_endian_counterexample :
    (regsZero.write_dword Endianness.big Register.AF 0x0100).bind
        (fun r2 => r2.read_word Register.F) = Except.ok 1 ∧
    (0x0100 : Nat) &&& 0x00FF = 0 := by
  decide

/-- C5 (amended): on a little-endian target, after `write_dword AF v`,
`read_word F` returns the low byte of v and `read_word A` returns the high
byte (F occupies offset 0 of the AF pair, A occupies offset 1); on a
big-endian target the two roles are swapped. -/
theorem C5_aliasing_little_endian (r r2 : RegDataArray) (hr : r.wf) (v : Nat)
    (hv : v < 65536)
    (hwrite : r.write_dword Endianness.little Register.AF v = Except.ok r2) :
    r2.read_word Register.F = Except.ok (v &&& 0x00FF) ∧
    r2.read_word Register.A = Except.ok (v >>> 8) := by
  have hlen : r.data.length = 12 := hr
  rw [write_dword_ok r Endianness.little Register.AF (by decide) v] at hwrite
  have h1 := (Except.ok.inj hwrite).symm
  subst h1
  constructor <;>
    simp [RegDataArray.read_word, Register.get_reg_size, get_idx_for_register,
      getD_set_self, getD_set_ne, getElem_getD_set_self, getElem_getD_set_ne, hlen,
      and255_mod, shiftRight8_mod v hv]

/-- C5 witness: the little-endian aliasing theorem applied at 0xAAFF from
the all-zero register file. -/
theorem C5_aliasing_witness :
    (RegDataArray.mk [0xFF, 0xAA, 0, 0, 0, 0, 0, 0, 0, 0, 0, 0]).read_word Register.F =
      Except.ok (0xAAFF &&& 0x00FF) ∧
    (RegDataArray.mk [0xFF, 0xAA, 0, 0, 0, 0, 0, 0, 0, 0, 0, 0]).read_word Register.A =
      Except.ok (0xAAFF >>> 8) :=
  C5_aliasing_little_endian regsZero
    (RegDataArray.mk [0xFF, 0xAA, 0, 0, 0, 0, 0, 0, 0, 0, 0, 0]) rfl
    0xAAFF (by decide) (by decide)

/-- C8: `read_word`/`write_word` fail with SizeMismatch exactly on the
2-byte registers AF, BC, DE, HL, SP, PC (and succeed otherwise);
`read_dword`/`write_dword` fail with SizeMismatch exactly on the 1-byte
registers A, B, C, D, E, F, H, L (and succeed otherwise); and `copy_reg`
fails with SizeMismatch exactly when the two registers' size classes
differ (and succeeds otherwise). -/
theorem C8_size_mismatch_exact (r : RegDataArray) (e : Endianness) (v : Nat)
    (reg dst src : Register) :
    (r.read_word reg = Except.error RegError.SizeMismatch ↔
      reg ∈ [Register.AF, Register.BC, Register.DE, Register.HL, Register.SP,
        Register.PC]) ∧
    ((r.read_word reg).isOk = true ↔
      reg ∉ [Register.AF, Register.BC, Register.DE, Register.HL, Register.SP,
        Register.PC]) ∧
    (r.write_word reg v = Except.error RegError.SizeMismatch ↔
      reg ∈ [Register.AF, Register.BC, Register.DE, Register.HL, Register.SP,
        Register.PC]) ∧
    ((r.write_word reg v).isOk = true ↔
      reg ∉ [Register.AF, Register.BC, Register.DE, Register.HL, Register.SP,
        Register.PC]) ∧
    (r.read_dword e reg = Except.error RegError.SizeMismatch ↔
      reg ∈ [Register.A, Register.B, Register.C, Register.D, Register.E, Register.F,
        Register.H, Register.L]) ∧
    ((r.read_dword e reg).isOk = true ↔
      reg ∉ [Register.A, Register.B, Register.C, Register.D, Register.E, Register.F,
        Register.H, Register.L]) ∧
    (r.write_dword e reg v = Except.error RegError.SizeMismatch ↔
      reg ∈ [Register.A, Register.B, Register.C, Register.D, Register.E, Register.F,
        Register.H, Register.L]) ∧
    ((r.write_dword e reg v).isOk = true ↔
      reg ∉ [Register.A, Register.B, Register.C, Register.D, Register.E, Register.F,
        Register.H, Register.L]) ∧
    (r.copy_reg dst src = Except.error RegError.SizeMismatch ↔
      dst.get_reg_size ≠ src.get_reg_size) ∧
    ((r.copy_reg dst src).isOk = true ↔ dst.get_reg_size = src.get_reg_size) := by
  have hb2 := size2_iff_mem reg
  have hb1 := size1_iff_mem reg
  have haux1 := error_iff_aux (reg.get_reg_size ≠ 1)
    (Except.ok (r.data.getD (get_idx_for_register reg) 0) : Except RegError Nat) rfl
  have haux2 := error_iff_aux (reg.get_reg_size ≠ 1)
    (Except.ok (RegDataArray.mk (r.data.set (get_idx_for_register reg) v)) :
      Except RegError RegDataArray) rfl
  have haux3 : (r.read_dword e reg = Except.error RegError.SizeMismatch ↔
      reg.get_reg_size ≠ 2) ∧
      ((r.read_dword e reg).isOk = true ↔ ¬reg.get_reg_size ≠ 2) := by
    cases e
    · exact error_iff_aux (reg.get_reg_size ≠ 2)
        (Except.ok ((r.data.getD (get_idx_for_register reg) 0 <<< 8) |||
          r.data.getD (get_idx_for_register reg + 1) 0) : Except RegError Nat) rfl
    · exact error_iff_aux (reg.get_reg_size ≠ 2)
        (Except.ok ((r.data.getD (get_idx_for_register reg + 1) 0 <<< 8) |||
          r.data.getD (get_idx_for_register reg) 0) : Except RegError Nat) rfl
  have haux4 : (r.write_dword e reg v = Except.error RegError.SizeMismatch ↔
      reg.get_reg_size ≠ 2) ∧
      ((r.write_dword e reg v).isOk = true ↔ ¬reg.get_reg_size ≠ 2) := by
    cases e
    · exact error_iff_aux (reg.get_reg_size ≠ 2)
        (Except.ok (RegDataArray.mk ((r.data.set (get_idx_for_register reg)
          ((v >>> 8) % 256)).set (get_idx_for_register reg + 1)
          ((v &&& 0x00FF) % 256))) : Except RegError RegDataArray) rfl
    · exact error_iff_aux (reg.get_reg_size ≠ 2)
        (Except.ok (RegDataArray.mk ((r.data.set (get_idx_for_register reg)
          ((v &&& 0x00FF) % 256)).set (get_idx_for_register reg + 1)
          ((v >>> 8) % 256))) : Except RegError RegDataArray) rfl
  have haux5 := error_iff_aux (dst.get_reg_size ≠ src.get_reg_size)
    (Except.ok (RegDataArray.mk (r.data.set (get_idx_for_register dst)
      (r.data.getD (get_idx_for_register src) 0))) : Except RegError RegDataArray) rfl
  exact ⟨Iff.trans haux1.1 hb2, Iff.trans haux1.2 (not_congr hb2),
    Iff.trans haux2.1 hb2, Iff.trans haux2.2 (not_congr hb2),
    Iff.trans haux3.1 hb1, Iff.trans haux3.2 (not_congr hb1),
    Iff.trans haux4.1 hb1, Iff.trans haux4.2 (not_congr hb1),
    haux5.1, Iff.trans haux5.2 not_ne_iff⟩

/-- C9: for every flag subset f, `set_flags f` then `get_flags` succeeds and
returns f, and the stored F byte's low nibble is zero; conversely `get_flags`
fails with InvalidFlagState exactly when some low-nibble bit of the F byte
is set. -/
theorem C9_flags_roundtrip (r r2 : RegDataArray) (f : StatusFlags) (hr : r.wf)
    (hset : r.set_flags f = Except.ok r2) :
    r2.get_flags = Except.ok f ∧ r2.data.getD 0 0 % 16 = 0 ∧
    (r.get_flags = Except.error RegError.InvalidFlagState ↔
      r.data.getD 0 0 &&& 0x0F ≠ 0) := by
  have hlen : r.data.length = 12 := hr
  have h0 : r.set_flags f = Except.ok (RegDataArray.mk (r.data.set 0 f.bits)) := rfl
  rw [h0] at hset
  have h1 := (Except.ok.inj hset).symm
  subst h1
  refine ⟨?_, ?_, ?_⟩
  · have hread : (RegDataArray.mk (r.data.set 0 f.bits)).read_word Register.F =
        Except.ok ((r.data.set 0 f.bits).getD 0 0) := rfl
    simp [RegDataArray.get_flags, hread, getD_set_self r.data 0 f.bits (by omega),
      getElem_getD_set_self r.data 0 f.bits (by omega), from_bits_bits f]
  · rw [getD_set_self r.data 0 f.bits (by omega)]
    exact bits_mod16 f
  · by_cases hb : (r.data[0]?).getD 0 &&& 0x0F = 0 <;>
      simp [RegDataArray.get_flags, RegDataArray.read_word, Register.get_reg_size,
        get_idx_for_register, StatusFlags.from_bits, hb]

/-- C9 witness: the flags round trip for Z and H set, from the all-zero
register file. -/
theorem C9_flags_witness :
    (RegDataArray.mk ((List.replicate 12 0).set 0 160)).get_flags =
      Except.ok (StatusFlags.mk true false true false) ∧
    (RegDataArray.mk ((List.replicate 12 0).set 0 160)).data.getD 0 0 % 16 = 0 ∧
    (regsZero.get_flags = Except.error RegError.InvalidFlagState ↔
      regsZero.data.getD 0 0 &&& 0x0F ≠ 0) :=
  C9_flags_roundtrip regsZero (RegDataArray.mk ((List.replicate 12 0).set 0 160))
    (StatusFlags.mk true false true false) rfl (by decide)

/-- C6: `read_word` and `write_word` succeed (return a result) for every
address in the 16-bit space except exactly the unmapped gap
[0xFEA0, 0xFEFF], where they fail (the source's abort arm); in particular
every computed segment index, including the echo-RAM redirect into the
internal-RAM buffer, is in bounds. -/
theorem C6_mapped_iff_not_gap (m : Memory) (hw : m.wf) (a d : Nat) (ha : a ≤ 0xFFFF) :
    ((m.read_word a).isSome = true ↔ ¬(0xFEA0 ≤ a ∧ a ≤ 0xFEFF)) ∧
    ((m.write_word a d).isSome = true ↔ ¬(0xFEA0 ≤ a ∧ a ≤ 0xFEFF)) := by
  obtain ⟨h1, h2, h3, h4, h5, h6, h7⟩ := (wf_iff m).mp hw
  have hc : a = 0xFFFF ∨ a ≤ 0x7FFF ∨ (0x8000 ≤ a ∧ a ≤ 0x9FFF) ∨
      (0xA000 ≤ a ∧ a ≤ 0xBFFF) ∨ (0xC000 ≤ a ∧ a ≤ 0xDFFF) ∨
      (0xE000 ≤ a ∧ a ≤ 0xFDFF) ∨ (0xFE00 ≤ a ∧ a ≤ 0xFE9F) ∨
      (0xFF00 ≤ a ∧ a ≤ 0xFF7F) ∨ (0xFF80 ≤ a ∧ a ≤ 0xFFFE) ∨
      (0xFEA0 ≤ a ∧ a ≤ 0xFEFF) := by omega
  rcases hc with h | h | h | h | h | h | h | h | h | h
  · constructor
    · rw [read_interrupt_eq m a h]
      simp only [Option.isSome_some]
      exact ⟨fun _ => by omega, fun _ => trivial⟩
    · rw [write_interrupt_eq m a d h]
      simp only [Option.isSome_some]
      exact ⟨fun _ => by omega, fun _ => trivial⟩
  · constructor
    · rw [read_cart_eq m a h, isSome_getByte]
      omega
    · rw [write_cart_eq m a d hw h]
      simp only [Option.isSome_some]
      exact ⟨fun _ => by omega, fun _ => trivial⟩
  · constructor
    · rw [read_vram_eq m a h, isSome_getByte]
      omega
    · rw [write_vram_eq m a d hw h]
      simp only [Option.isSome_some]
      exact ⟨fun _ => by omega, fun _ => trivial⟩
  · constructor
    · rw [read_exram_eq m a h, isSome_getByte]
      omega
    · rw [write_exram_eq m a d hw h]
      simp only [Option.isSome_some]
      exact ⟨fun _ => by omega, fun _ => trivial⟩
  · constructor
    · rw [read_inram_eq m a h, isSome_getByte]
      omega
    · rw [write_inram_eq m a d hw h]
      simp only [Option.isSome_some]
      exact ⟨fun _ => by omega, fun _ => trivial⟩
  · constructor
    · rw [read_eram_eq m a h, isSome_getByte]
      omega
    · rw [write_eram_eq m a d hw h]
      simp only [Option.isSome_some]
      exact ⟨fun _ => by omega, fun _ => trivial⟩
  · constructor
    · rw [read_oam_eq m a h, isSome_getByte]
      omega
    · rw [write_oam_eq m a d hw h]
      simp only [Option.isSome_some]
      exact ⟨fun _ => by omega, fun _ => trivial⟩
  · constructor
    · rw [read_io_eq m a h, isSome_getByte]
      omega
    · rw [write_io_eq m a d hw h]
      simp only [Option.isSome_some]
      exact ⟨fun _ => by omega, fun _ => trivial⟩
  · constructor
    · rw [read_hram_eq m a h, isSome_getByte]
      omega
    · rw [write_hram_eq m a d hw h]
      simp only [Option.isSome_some]
      exact ⟨fun _ => by omega, fun _ => trivial⟩
  · constructor
    · rw [read_gap_eq m a h]
      simp only [Option.isSome_none]
      exact ⟨fun hx => Bool.noConfusion hx, fun hx => absurd h hx⟩
    · rw [write_gap_eq m a d h]
      simp only [Option.isSome_none]
      exact ⟨fun hx => Bool.noConfusion hx, fun hx => absurd h hx⟩

/-- C6 witness: at the gap address 0xFEA0 both operations fail, by the
mapped-iff-not-gap theorem applied to the all-zero memory. -/
theorem C6_mapped_witness :
    ((memZero.read_word 0xFEA0).isSome = true ↔
      ¬(0xFEA0 ≤ (0xFEA0 : Nat) ∧ (0xFEA0 : Nat) ≤ 0xFEFF)) ∧
    ((memZero.write_word 0xFEA0 7).isSome = true ↔
      ¬(0xFEA0 ≤ (0xFEA0 : Nat) ∧ (0xFEA0 : Nat) ≤ 0xFEFF)) :=
  C6_mapped_iff_not_gap memZero memZero_wf 0xFEA0 7 (by decide)

/-- C7: writing a byte at internal-RAM address 0xC000+k is readable at the
echo address 0xE000+k, and writing at 0xE000+k is readable at 0xC000+k:
the echo range is redirected to the internal-RAM buffer at the same
offset. -/
theorem C7_echo_redirect (m m1 m2 : Memory) (hw : m.wf) (k b : Nat)
    (hk : k ≤ 0x1DFF) (hw1 : m.write_word (0xC000 + k) b = some m1)
    (hw2 : m.write_word (0xE000 + k) b = some m2) :
    m1.read_word (0xE000 + k) = some b ∧ m2.read_word (0xC000 + k) = some b := by
  obtain ⟨h1, h2, h3, h4, h5, h6, h7⟩ := (wf_iff m).mp hw
  rw [write_inram_eq m (0xC000 + k) b hw (by omega)] at hw1
  rw [write_eram_eq m (0xE000 + k) b hw (by omega)] at hw2
  have e1 := (Option.some.inj hw1).symm
  have e2 := (Option.some.inj hw2).symm
  subst e1
  subst e2
  rw [Nat.add_sub_cancel_left, Nat.add_sub_cancel_left]
  constructor
  · rw [read_eram_eq _ (0xE000 + k) (by omega), Nat.add_sub_cancel_left]
    exact getByte_set_self m.inram k b (by omega)
  · rw [read_inram_eq _ (0xC000 + k) (by omega), Nat.add_sub_cancel_left]
    exact getByte_set_self m.inram k b (by omega)

/-- C7 witness: the echo-redirect theorem at offset 0x10 with byte 0x55 on
the all-zero memory (the spec's §8 example addresses 0xC010/0xE010). -/
theorem C7_echo_witness :
    Memory.read_word { memZero with inram := memZero.inram.set 0x10 0x55 }
      (0xE000 + 0x10) = some 0x55 ∧
    Memory.read_word { memZero with inram := memZero.inram.set 0x10 0x55 }
      (0xC000 + 0x10) = some 0x55 :=
  C7_echo_redirect memZero
    { memZero with inram := memZero.inram.set 0x10 0x55 }
    { memZero with inram := memZero.inram.set 0x10 0x55 }
    memZero_wf 0x10 0x55 (by decide)
    (by rw [write_inram_eq memZero (0xC000 + 0x10) 0x55 memZero_wf (by decide),
      Nat.add_sub_cancel_left])
    (by rw [write_eram_eq memZero (0xE000 + 0x10) 0x55 memZero_wf (by decide),
      Nat.add_sub_cancel_left])

/-- C10: `write_word` modifies exactly one storage cell — after a
successful write at a mapped address a, reading any mapped address that
does not denote the same storage cell (equal address, or the echo alias of
the same internal-RAM offset) returns the same byte as before the write. -/
theorem C10_write_frame (m m2 : Memory) (hw : m.wf) (a a2 b : Nat)
    (ha : a ≤ 0xFFFF) (hga : ¬(0xFEA0 ≤ a ∧ a ≤ 0xFEFF))
    (ha2 : a2 ≤ 0xFFFF) (hga2 : ¬(0xFEA0 ≤ a2 ∧ a2 ≤ 0xFEFF))
    (hdiff : ¬sameCell a a2) (hwr : m.write_word a b = some m2) :
    m2.read_word a2 = m.read_word a2 := by
  obtain ⟨h1, h2, h3, h4, h5, h6, h7⟩ := (wf_iff m).mp hw
  simp only [sameCell, INRAM_START, ERAM_END] at hdiff
  have hc : a = 0xFFFF ∨ a ≤ 0x7FFF ∨ (0x8000 ≤ a ∧ a ≤ 0x9FFF) ∨
      (0xA000 ≤ a ∧ a ≤ 0xBFFF) ∨ (0xC000 ≤ a ∧ a ≤ 0xDFFF) ∨
      (0xE000 ≤ a ∧ a ≤ 0xFDFF) ∨ (0xFE00 ≤ a ∧ a ≤ 0xFE9F) ∨
      (0xFF00 ≤ a ∧ a ≤ 0xFF7F) ∨ (0xFF80 ≤ a ∧ a ≤ 0xFFFE) := by omega
  have hc2 : a2 = 0xFFFF ∨ a2 ≤ 0x7FFF ∨ (0x8000 ≤ a2 ∧ a2 ≤ 0x9FFF) ∨
      (0xA000 ≤ a2 ∧ a2 ≤ 0xBFFF) ∨ (0xC000 ≤ a2 ∧ a2 ≤ 0xDFFF) ∨
      (0xE000 ≤ a2 ∧ a2 ≤ 0xFDFF) ∨ (0xFE00 ≤ a2 ∧ a2 ≤ 0xFE9F) ∨
      (0xFF00 ≤ a2 ∧ a2 ≤ 0xFF7F) ∨ (0xFF80 ≤ a2 ∧ a2 ≤ 0xFFFE) := by omega
  rcases hc with h8 | h8 | h8 | h8 | h8 | h8 | h8 | h8 | h8 <;>
    first
      | rw [write_interrupt_eq m a b h8] at hwr
      | rw [write_cart_eq m a b hw h8] at hwr
      | rw [write_vram_eq m a b hw h8] at hwr
      | rw [write_exram_eq m a b hw h8] at hwr
      | rw [write_inram_eq m a b hw h8] at hwr
      | rw [write_eram_eq m a b hw h8] at hwr
      | rw [write_oam_eq m a b hw h8] at hwr
      | rw [write_io_eq m a b hw h8] at hwr
      | rw [write_hram_eq m a b hw h8] at hwr
  all_goals (
    have he := (Option.some.inj hwr).symm
    subst he
    rcases hc2 with h9 | h9 | h9 | h9 | h9 | h9 | h9 | h9 | h9 <;>
      first
        | (rw [read_interrupt_eq _ a2 h9, read_interrupt_eq _ a2 h9] <;>
            first
              | exact getByte_set_ne _ _ _ _ (by omega)
              | omega
              | rfl)
        | (rw [read_cart_eq _ a2 h9, read_cart_eq _ a2 h9] <;>
            first
              | exact getByte_set_ne _ _ _ _ (by omega)
              | omega
              | rfl)
        | (rw [read_vram_eq _ a2 h9, read_vram_eq _ a2 h9] <;>
            first
              | exact getByte_set_ne _ _ _ _ (by omega)
              | omega
              | rfl)
        | (rw [read_exram_eq _ a2 h9, read_exram_eq _ a2 h9] <;>
            first
              | exact getByte_set_ne _ _ _ _ (by omega)
              | omega
              | rfl)
        | (rw [read_inram_eq _ a2 h9, read_inram_eq _ a2 h9] <;>
            first
              | exact getByte_set_ne _ _ _ _ (by omega)
              | omega
              | rfl)
        | (rw [read_eram_eq _ a2 h9, read_eram_eq _ a2 h9] <;>
            first
              | exact getByte_set_ne _ _ _ _ (by omega)
              | omega
              | rfl)
        | (rw [read_oam_eq _ a2 h9, read_oam_eq _ a2 h9] <;>
            first
              | exact getByte_set_ne _ _ _ _ (by omega)
              | omega
              | rfl)
        | (rw [read_io_eq _ a2 h9, read_io_eq _ a2 h9] <;>
            first
              | exact getByte_set_ne _ _ _ _ (by omega)
              | omega
              | rfl)
        | (rw [read_hram_eq _ a2 h9, read_hram_eq _ a2 h9] <;>
            first
              | exact getByte_set_ne _ _ _ _ (by omega)
              | omega
              | rfl))

/-- C10 witness: writing the interrupt-enable byte at 0xFFFF leaves the
last high-RAM address 0xFFFE unchanged, by the frame theorem applied to
the all-zero memory. -/
theorem C10_write_frame_witness :
    Memory.read_word { memZero with interrupt := 0x1F } 0xFFFE =
      memZero.read_word 0xFFFE :=
  C10_write_frame memZero { memZero with interrupt := 0x1F } memZero_wf
    0xFFFF 0xFFFE 0x1F (by decide) (by decide) (by decide) (by decide)
    (by decide) (write_interrupt_eq memZero 0xFFFF 0x1F rfl)

end GB
